import Mathlib

/-!
Verification of the openclaw repository's folder-confined Drive proxy and its
config-auditing script, against the repository's specification.

Part 1 embeds `scripts/search-config-tts.ts` (the config-auditing script):
JSON values as the script sees them after `JSON.parse`, the `mask` function,
and the `collect` traversal.

Part 2 models the Drive Playground service (scope guard, file-type
dispatcher, write/read operations, request gateway, credential refresh).
The service's Python source is not part of the analysed tree, so those
definitions are modelled from the specification, as marked on each.
-/

/-- JSON-like runtime values as seen by the config-auditing script after
`JSON.parse`: strings, numbers, booleans, null, arrays and objects. -/
inductive JValue where
  | str (s : String)
  | num (n : Int)
  | jbool (b : Bool)
  | null
  | arr (elems : List JValue)
  | obj (fields : List (String × JValue))

/-- One record pushed by `collect`: a dotted path, a (possibly masked)
value, and a kind tag, mirroring `{ path, value, kind }` in the script. -/
structure ConfigEntry where
  path : String
  value : String
  kind : String
deriving DecidableEq, Repr

/-- `mask` from `scripts/search-config-tts.ts`: values of length at most 16
become `"***"`; longer values keep their first 8 and last 4 characters
around an ellipsis. -/
def mask (s : String) : String :=
  if s.length ≤ 16 then "***" else s.take 8 ++ "…" ++ s.drop (s.length - 4)

/-- The dotted-path builder from `collect`:
`const p = prefix ? prefix + "." + k : k`. -/
def childPath (pre k : String) : String :=
  if pre = "" then k else pre ++ "." ++ k

mutual

/-- `collect` from `scripts/search-config-tts.ts`. Non-object inputs are
ignored (`if (!obj || typeof obj !== "object") return`); `Object.entries`
iterates the fields of an object, and the index keys of an array. -/
def collect : JValue → String → List ConfigEntry
  | .obj fields, pre => collectFields fields pre
  | .arr elems, pre => collectElems elems 0 pre
  | _, _ => []

/-- The `for (const [k, v] of Object.entries(record))` loop over the fields
of an object. -/
def collectFields : List (String × JValue) → String → List ConfigEntry
  | [], _ => []
  | (k, v) :: rest, pre => collectField k v pre ++ collectFields rest pre

/-- The same loop over an array: `Object.entries` on a JavaScript array
yields its elements keyed by their decimal indices. -/
def collectElems : List JValue → Nat → String → List ConfigEntry
  | [], _, _ => []
  | v :: rest, i, pre => collectField (toString i) v pre ++ collectElems rest (i + 1) pre

/-- The body of the loop in `collect`: strings under the three secret keys
are recorded masked, strings under the five setting keys are recorded
verbatim, objects (and only objects: `!Array.isArray(v)`) are recursed
into, everything else is skipped. -/
def collectField (k : String) (v : JValue) (pre : String) : List ConfigEntry :=
  let p := childPath pre k
  match v with
  | .str s =>
    if k = "apiKey" ∨ k = "token" ∨ k = "api_key" then
      [⟨p, mask s, "secret"⟩]
    else if k = "provider" ∨ k = "voiceId" ∨ k = "voice" ∨ k = "modelId" ∨ k = "model" then
      [⟨p, s, "setting"⟩]
    else []
  | .obj fields => collectFields fields p
  | _ => []

end

/-- Soundness target for entries emitted by the traversal: every entry is a
masked secret or a verbatim setting. -/
def EntrySound (e : ConfigEntry) : Prop :=
  (e.kind = "secret" ∧ ∃ t, e.value = mask t) ∨ e.kind = "setting"

theorem mem_collectFields {e : ConfigEntry} :
    ∀ (fields : List (String × JValue)) (pre : String), e ∈ collectFields fields pre →
      ∃ kv ∈ fields, e ∈ collectField kv.1 kv.2 pre
  | [], pre, h => by simp [collectFields] at h
  | (k, v) :: rest, pre, h => by
    rw [collectFields] at h
    rcases List.mem_append.mp h with h1 | h2
    · exact ⟨(k, v), List.mem_cons_self _ _, h1⟩
    · obtain ⟨kv, hm, hf⟩ := mem_collectFields rest pre h2
      exact ⟨kv, List.mem_cons_of_mem _ hm, hf⟩

theorem mem_collectElems {e : ConfigEntry} :
    ∀ (elems : List JValue) (i : Nat) (pre : String), e ∈ collectElems elems i pre →
      ∃ v ∈ elems, ∃ k, e ∈ collectField k v pre
  | [], _, pre, h => by simp [collectElems] at h
  | v :: rest, i, pre, h => by
    rw [collectElems] at h
    rcases List.mem_append.mp h with h1 | h2
    · exact ⟨v, List.mem_cons_self _ _, toString i, h1⟩
    · obtain ⟨w, hm, k, hf⟩ := mem_collectElems rest (i + 1) pre h2
      exact ⟨w, List.mem_cons_of_mem _ hm, k, hf⟩

theorem collectField_sound (n : Nat) :
    ∀ v : JValue, sizeOf v ≤ n → ∀ k pre e, e ∈ collectField k v pre → EntrySound e := by
  induction n with
  | zero =>
    intro v hv
    cases v <;> simp_arith at hv
  | succ n ih =>
    intro v hv k pre e he
    cases v with
    | str s =>
      rw [collectField] at he
      split at he
      · rcases List.mem_singleton.mp he with rfl
        exact Or.inl ⟨rfl, s, rfl⟩
      · split at he
        · rcases List.mem_singleton.mp he with rfl
          exact Or.inr rfl
        · simp at he
    | obj fields =>
      rw [collectField] at he
      obtain ⟨kv, hm, hf⟩ := mem_collectFields fields _ he
      have h1 : sizeOf kv < sizeOf fields := List.sizeOf_lt_of_mem hm
      have h2 : sizeOf kv.2 < sizeOf kv := by
        obtain ⟨a, b⟩ := kv
        simp_arith
      have h3 : sizeOf (JValue.obj fields) = 1 + sizeOf fields := by simp_arith
      exact ih kv.2 (by omega) kv.1 _ e hf
    | num m => simp [collectField] at he
    | jbool b => simp [collectField] at he
    | null => simp [collectField] at he
    | arr elems => simp [collectField] at he

theorem collect_sound {v : JValue} {pre : String} {e : ConfigEntry}
    (h : e ∈ collect v pre) : EntrySound e := by
  cases v with
  | obj fields =>
    rw [collect] at h
    obtain ⟨kv, _, hf⟩ := mem_collectFields fields _ h
    exact collectField_sound (sizeOf kv.2) kv.2 le_rfl kv.1 _ e hf
  | arr elems =>
    rw [collect] at h
    obtain ⟨w, _, k, hf⟩ := mem_collectElems elems _ _ h
    exact collectField_sound (sizeOf w) w le_rfl k _ e hf
  | str s => simp [collect] at h
  | num m => simp [collect] at h
  | jbool b => simp [collect] at h
  | null => simp [collect] at h

theorem string_length_data (s : String) : s.length = s.data.length := rfl

/-- Claim C9: `mask` returns the constant `"***"` whenever the string has
length at most 16, and otherwise returns the first 8 characters followed by
an ellipsis and the last 4 characters; consequently every value `collect`
records with kind `"secret"` is the mask of some string, exposing at most
8 + 4 = 12 characters of the original secret (and none when it is short). -/
theorem mask_limits_secret_exposure :
    (∀ s : String, s.length ≤ 16 → mask s = "***")
    ∧ (∀ s : String, 16 < s.length →
        mask s = s.take 8 ++ "…" ++ s.drop (s.length - 4)
        ∧ (s.take 8).length = 8 ∧ (s.drop (s.length - 4)).length = 4)
    ∧ (∀ (v : JValue) (pre : String) (e : ConfigEntry), e ∈ collect v pre →
        e.kind = "secret" → ∃ t, e.value = mask t) := by
  refine ⟨?_, ?_, ?_⟩
  · intro s hs
    rw [mask, if_pos hs]
  · intro s hs
    refine ⟨by rw [mask, if_neg (by omega)], ?_, ?_⟩
    · rw [string_length_data] at hs
      rw [string_length_data, String.data_take, List.length_take]
      exact inf_eq_left.mpr (by omega)
    · rw [string_length_data] at hs
      rw [string_length_data, String.data_drop, List.length_drop, string_length_data]
      omega
  · intro v pre e hmem hk
    rcases collect_sound hmem with ⟨_, t, hv⟩ | hset
    · exact ⟨t, hv⟩
    · rw [hset] at hk
      simp at hk

/-- Claim C9 witness: the three parts instantiated at concrete secrets and a
concrete config object. -/
theorem mask_limits_secret_exposure_spot :
    mask "0123456789abcdef" = "***"
    ∧ mask "0123456789abcdefghij"
        = "0123456789abcdefghij".take 8 ++ "…"
          ++ "0123456789abcdefghij".drop ("0123456789abcdefghij".length - 4)
    ∧ ∃ t, ("01234567…ghij" : String) = mask t :=
  ⟨mask_limits_secret_exposure.1 "0123456789abcdef" (by decide),
   (mask_limits_secret_exposure.2.1 "0123456789abcdefghij" (by decide)).1,
   mask_limits_secret_exposure.2.2
     (.obj [("apiKey", .str "0123456789abcdefghij")]) ""
     ⟨"apiKey", "01234567…ghij", "secret"⟩ (by decide) rfl⟩

/-- Claim C10: `collect` never descends into array values — an array value
contributes no entries, whatever its key — and every emitted entry has kind
`"secret"` (keys apiKey, token, api_key) or `"setting"` (keys provider,
voiceId, voice, modelId, model); string values under any other key are
silently skipped. -/
theorem collect_skips_arrays_and_unknown_keys :
    (∀ (k : String) (elems : List JValue) (pre : String),
        collectField k (.arr elems) pre = [])
    ∧ (∀ (fields : List (String × JValue)) (pre : String) (e : ConfigEntry),
        e ∈ collect (.obj fields) pre → e.kind = "secret" ∨ e.kind = "setting")
    ∧ (∀ (k s pre : String),
        ¬(k = "apiKey" ∨ k = "token" ∨ k = "api_key") →
        ¬(k = "provider" ∨ k = "voiceId" ∨ k = "voice" ∨ k = "modelId" ∨ k = "model") →
        collectField k (.str s) pre = []) := by
  refine ⟨?_, ?_, ?_⟩
  · intro k elems pre
    simp [collectField]
  · intro fields pre e hmem
    rcases collect_sound hmem with ⟨hsec, _⟩ | hset
    · exact Or.inl hsec
    · exact Or.inr hset
  · intro k s pre h1 h2
    rw [collectField]
    simp only [if_neg h1, if_neg h2]

/-- Claim C10 witness: a secret-shaped string inside an array element is
dropped, a recognized setting is kept with kind `"setting"`, and an
unrecognized key is skipped. -/
theorem collect_skips_arrays_and_unknown_keys_spot :
    collectField "apiKey" (.arr [.str "hush"]) "" = []
    ∧ (ConfigEntry.kind ⟨"voice", "alloy", "setting"⟩ = "secret"
        ∨ ConfigEntry.kind ⟨"voice", "alloy", "setting"⟩ = "setting")
    ∧ collectField "other" (.str "v") "" = [] :=
  ⟨collect_skips_arrays_and_unknown_keys.1 "apiKey" [.str "hush"] "",
   collect_skips_arrays_and_unknown_keys.2.1 [("voice", .str "alloy")] ""
     ⟨"voice", "alloy", "setting"⟩ (by decide),
   collect_skips_arrays_and_unknown_keys.2.2 "other" "v" "" (by decide) (by decide)⟩

/-! ## Part 2: the Drive Playground service, modelled from the specification

The service itself (`drive_playground_service.py`) is not part of the
analysed tree — only its README, run script and documentation are — so the
definitions below are modelled from the specification's component
contracts (§3, §4, §6, §7). -/

/-- Modelled from the spec: the error taxonomy of §7 for the missing
`drive_playground_service.py`. -/
inductive DriveError where
  | unauthorized
  | invalidRequest
  | outOfScope
  | authUnavailable
  | backendFailure
deriving DecidableEq, Repr

/-- Modelled from the spec: a `Folder` is `(id, isRoot)` (§3); produced by
the Scope Guard's `resolve`. -/
structure Folder where
  id : String
  isRoot : Bool
deriving DecidableEq, Repr

/-- Modelled from the spec: the normalized write-intent structure the File
Type Dispatcher hands to the backend-calling layer (§4.3) — one case per
supported MIME type plus the raw-text fallback. -/
inductive WriteIntent where
  | plainText (data : String)
  | docText (text : String)
  | sheetRows (rows : List (List String))
  | slide (title : String) (body : String)
deriving DecidableEq, Repr

/-- Modelled from the spec: a `FileHandle` record `(id, name, mimeType,
parentId)` (§3), extended with the stored write-intent since the backend
store owns the authoritative content. -/
structure DriveFile where
  id : String
  name : String
  mimeType : String
  parentId : String
  intent : WriteIntent
deriving DecidableEq, Repr

/-- Modelled from the spec: the backend account's mutable file store, for
the missing service; `nextId` drives fresh file identifiers. -/
structure Backend where
  files : List DriveFile
  nextId : Nat
deriving DecidableEq, Repr

/-- Modelled from the spec: the service's configuration surface (§6) — the
shared secret, the configured root folder id, the backend's external
folder-parent graph, and the outbound fetch used for `file_url` bodies. -/
structure Env where
  secret : String
  rootId : String
  parent : String → Option String
  fetch : String → String

/-- Modelled from the spec: the `k`-th ancestor of a node under the
backend's parent graph, used to state reachability from the root. -/
def ancestorAt (parent : String → Option String) : Nat → String → Option String
  | 0, x => some x
  | n + 1, x => (parent x).bind (ancestorAt parent n)

/-- Modelled from the spec: the Scope Guard's bounded upward walk (§4.2) —
from the target toward the root, one parent step per unit of fuel, failing
closed when the fuel runs out or a node has no parent. -/
def walkUp (parent : String → Option String) (rootId : String) : Nat → String → Bool
  | 0, cur => cur = rootId
  | n + 1, cur =>
    if cur = rootId then true
    else
      match parent cur with
      | none => false
      | some p => walkUp parent rootId n p

/-- Modelled from the spec: the small fixed depth cap of the upward walk
(§4.2, "e.g. 32"). -/
def scopeDepthCap : Nat := 32

/-- Modelled from the spec: parent lookup for the walk — files created
through the service live in the backend store, everything else is resolved
through the backend account's external folder graph. -/
def nodeParent (env : Env) (st : Backend) (id : String) : Option String :=
  match st.files.find? (fun f => f.id == id) with
  | some f => some f.parentId
  | none => env.parent id

/-- Modelled from the spec: the Scope Guard's `resolve` (§4.2). An absent
target yields the configured root; otherwise the bounded upward walk must
reach the root, and anything else fails with `OutOfScope`. -/
def resolve (env : Env) (st : Backend) (targetId : Option String) : Except DriveError Folder :=
  match targetId with
  | none => .ok ⟨env.rootId, true⟩
  | some tid =>
    if walkUp (nodeParent env st) env.rootId scopeDepthCap tid then
      .ok ⟨tid, tid == env.rootId⟩
    else
      .error .outOfScope

/-- Modelled from the spec: the default MIME type of `/write` (§6). -/
def plainMime : String := "text/plain"

/-- Modelled from the spec: the structured-document MIME type (README §6,
"application/vnd.google-apps.document"). -/
def docMime : String := "application/vnd.google-apps.document"

/-- Modelled from the spec: the spreadsheet MIME type (README §6,
"application/vnd.google-apps.spreadsheet"). -/
def sheetMime : String := "application/vnd.google-apps.spreadsheet"

/-- Modelled from the spec: the presentation MIME type (README §6,
"application/vnd.google-apps.presentation"). -/
def slidesMime : String := "application/vnd.google-apps.presentation"

/-- Modelled from the spec: character-level splitting used by the
dispatcher's row and line parsing; splitting an empty text yields one empty
field, as `"".split(sep)` does. -/
def splitOnChar (c : Char) : List Char → List (List Char)
  | [] => [[]]
  | x :: xs =>
    let r := splitOnChar c xs
    if x = c then
      [] :: r
    else
      match r with
      | [] => [[x]]
      | g :: gs => (x :: g) :: gs

/-- Modelled from the spec: string form of `splitOnChar`. -/
def splitStr (c : Char) (s : String) : List String :=
  (splitOnChar c s.data).map String.mk

/-- Modelled from the spec: the spreadsheet encoding (§4.3) — content is
parsed as comma- or tab-delimited rows, one row per line; a line that
contains a tab is split on tabs, otherwise on commas. -/
def parseRows (content : String) : List (List String) :=
  (splitStr '\n' content).map fun line =>
    if '\t' ∈ line.data then splitStr '\t' line else splitStr ',' line

/-- Modelled from the spec: the File Type Dispatcher's four-way dispatch
table (§4.3): structured-document text insertion, spreadsheet cell grid,
slide title/body split, and raw-text fallback for everything else. -/
def encodeContent (mimeType content : String) : WriteIntent :=
  if mimeType = docMime then .docText content
  else if mimeType = sheetMime then .sheetRows (parseRows content)
  else if mimeType = slidesMime then
    match splitStr '\n' content with
    | [] => .slide "" ""
    | t :: rest => .slide t (String.intercalate "\n" rest)
  else .plainText content

/-- Modelled from the spec: the JSON body of `POST /write` (§6):
`name`, `mime_type`, and optionally `content`, `file_url`, `folder_id`. -/
structure WriteArgs where
  name : String
  mimeType : String
  content : Option String
  sourceUrl : Option String
  folderId : Option String
deriving DecidableEq, Repr

/-- Modelled from the spec: the body-shape rule of §4.3 — exactly one of
`content` and `sourceUrl` drives the body, anything else is an
`InvalidRequest`. -/
def bodyOf (env : Env) (a : WriteArgs) : Except DriveError String :=
  match a.content, a.sourceUrl with
  | some c, none => .ok c
  | none, some u => .ok (env.fetch u)
  | some _, some _ => .error .invalidRequest
  | none, none => .error .invalidRequest

/-- Modelled from the spec: fresh backend file identifiers for creation. -/
def freshId (st : Backend) : String :=
  "file" ++ toString st.nextId

/-- Modelled from the spec: the dispatcher's `write` contract (§4.3):
validate the body shape, resolve the target folder through the Scope
Guard, encode the content per MIME type, then update the same-named
in-scope file in place or create a new one. -/
def write (env : Env) (st : Backend) (a : WriteArgs) : Except DriveError (DriveFile × Backend) :=
  match bodyOf env a with
  | .error e => .error e
  | .ok body =>
    match resolve env st a.folderId with
    | .error e => .error e
    | .ok folder =>
      let intent := encodeContent a.mimeType body
      match st.files.find? (fun f => f.name == a.name && f.parentId == folder.id) with
      | some f0 =>
        let updated : DriveFile := ⟨f0.id, f0.name, a.mimeType, f0.parentId, intent⟩
        .ok (updated, ⟨st.files.map (fun g => if g.id == f0.id then updated else g), st.nextId⟩)
      | none =>
        let created : DriveFile := ⟨freshId st, a.name, a.mimeType, folder.id, intent⟩
        .ok (created, ⟨created :: st.files, st.nextId + 1⟩)

/-- Modelled from the spec: what reading a file's content returns for each
stored write-intent — plain text comes back verbatim (§4.3). -/
def renderContent : WriteIntent → String
  | .plainText d => d
  | .docText t => t
  | .sheetRows rows => String.intercalate "\n" (rows.map (String.intercalate ","))
  | .slide t b => t ++ "\n" ++ b

/-- Modelled from the spec: `GET /files/(file_id)/content` (§6) — the Scope
Guard runs before the read (§4.2), then the stored content is rendered. -/
def readContent (env : Env) (st : Backend) (fileId : String) : Except DriveError String :=
  match resolve env st (some fileId) with
  | .error e => .error e
  | .ok _ =>
    match st.files.find? (fun f => f.id == fileId) with
    | some f => .ok (renderContent f.intent)
    | none => .error .outOfScope

/-- Modelled from the spec: the Listing/Pagination Adapter (§4.4) — the
folder defaults to root via the Scope Guard, only direct children are
returned, and the page size is clamped. -/
def listFiles (env : Env) (st : Backend) (folderId : Option String) (pageSize : Nat) :
    Except DriveError (List DriveFile) :=
  match resolve env st folderId with
  | .error e => .error e
  | .ok folder => .ok ((st.files.filter (fun f => f.parentId == folder.id)).take (min pageSize 100))

/-- Modelled from the spec: the HTTP routes of §6, with the `/write` body
already shaped (`none` stands for a body that failed JSON validation). -/
inductive Route where
  | health
  | listing (folderId : Option String) (pageSize : Nat)
  | fileContent (fileId : String)
  | writeFile (body : Option WriteArgs)
deriving DecidableEq, Repr

/-- Modelled from the spec: an inbound request — a route plus the two ways
of presenting the shared secret (header or bearer token). -/
structure Request where
  route : Route
  apiKeyHeader : Option String
  bearerToken : Option String
deriving DecidableEq, Repr

/-- Modelled from the spec: an HTTP response. -/
structure Response where
  status : Nat
  body : String
deriving DecidableEq, Repr

/-- Modelled from the spec: the error-to-status mapping of §7. -/
def errorStatus : DriveError → Nat
  | .unauthorized => 401
  | .invalidRequest => 400
  | .outOfScope => 404
  | .authUnavailable => 503
  | .backendFailure => 502

/-- Modelled from the spec: the structured error body distinguishing the
error kind (§7). -/
def errorBody : DriveError → String
  | .unauthorized => "unauthorized"
  | .invalidRequest => "invalid_request"
  | .outOfScope => "not_found"
  | .authUnavailable => "auth_unavailable"
  | .backendFailure => "backend_error"

/-- Modelled from the spec: the response for a failed operation. -/
def errorResponse (e : DriveError) : Response :=
  ⟨errorStatus e, errorBody e⟩

/-- Modelled from the spec: the shared-secret check (§4.5) — the secret may
arrive in the `X-API-Key` header or as a bearer token. -/
def hasSecret (env : Env) (req : Request) : Bool :=
  req.apiKeyHeader == some env.secret || req.bearerToken == some env.secret

/-- Modelled from the spec: the unauthenticated health probe's response,
`GET /health` returning the status-ok object (§6). -/
def healthResponse : Response :=
  ⟨200, "\x7b\"status\":\"ok\"\x7d"⟩

/-- Modelled from the spec: rendering of a listing or write result. -/
def renderFiles (files : List DriveFile) : String :=
  String.intercalate "," (files.map (fun f => f.id ++ ":" ++ f.name))

/-- Modelled from the spec: the Request Gateway (§4.5) in its fixed
validation order — health exemption, then authentication, then body
parsing, scope resolution and the operation, with errors mapped by §7. -/
def handle (env : Env) (st : Backend) (req : Request) : Response × Backend :=
  if req.route = .health then
    (healthResponse, st)
  else if hasSecret env req then
    match req.route with
    | .health => (healthResponse, st)
    | .listing folderId pageSize =>
      match listFiles env st folderId pageSize with
      | .ok fs => (⟨200, renderFiles fs⟩, st)
      | .error e => (errorResponse e, st)
    | .fileContent fid =>
      match readContent env st fid with
      | .ok c => (⟨200, c⟩, st)
      | .error e => (errorResponse e, st)
    | .writeFile none => (errorResponse .invalidRequest, st)
    | .writeFile (some a) =>
      match write env st a with
      | .ok (f, st2) => (⟨200, f.id ++ ":" ++ f.name⟩, st2)
      | .error e => (errorResponse e, st)
  else
    (errorResponse .unauthorized, st)

theorem walkUp_iff (parent : String → Option String) (rootId : String) :
    ∀ (n : Nat) (cur : String),
      walkUp parent rootId n cur = true
        ↔ ∃ k, k ≤ n ∧ ancestorAt parent k cur = some rootId := by
  intro n
  induction n with
  | zero =>
    intro cur
    rw [walkUp]
    constructor
    · intro h
      exact ⟨0, le_rfl, by simpa [ancestorAt] using of_decide_eq_true h⟩
    · rintro ⟨k, hk, ha⟩
      interval_cases k
      simp [ancestorAt] at ha
      simp [ha]
  | succ n ih =>
    intro cur
    rw [walkUp]
    by_cases hc : cur = rootId
    · simp only [if_pos hc]
      constructor
      · intro _
        exact ⟨0, Nat.zero_le _, by simp [ancestorAt, hc]⟩
      · intro _
        trivial
    · rw [if_neg hc]
      cases hp : parent cur with
      | none =>
        constructor
        · intro h
          simp at h
        · rintro ⟨k, hk, ha⟩
          cases k with
          | zero =>
            simp [ancestorAt] at ha
            exact absurd ha hc
          | succ j =>
            rw [ancestorAt, hp] at ha
            simp at ha
      | some p =>
        rw [ih p]
        constructor
        · rintro ⟨k, hk, ha⟩
          refine ⟨k + 1, Nat.succ_le_succ hk, ?_⟩
          rw [ancestorAt, hp]
          exact ha
        · rintro ⟨k, hk, ha⟩
          cases k with
          | zero =>
            simp [ancestorAt] at ha
            exact absurd ha hc
          | succ j =>
            rw [ancestorAt, hp] at ha
            exact ⟨j, Nat.le_of_succ_le_succ hk, ha⟩

/-- Claim C1: every target identifier that is not reachable from the
configured root by the bounded upward parent-chain walk (depth capped at
32) makes `resolve` fail with `OutOfScope`, whether or not the identifier
exists in the backend account; an absent `targetId` resolves to the
configured root. -/
theorem resolve_rejects_unreachable :
    (∀ (env : Env) (st : Backend) (tid : String),
        (∀ k, k ≤ scopeDepthCap → ancestorAt (nodeParent env st) k tid ≠ some env.rootId) →
        resolve env st (some tid) = .error .outOfScope)
    ∧ (∀ (env : Env) (st : Backend), resolve env st none = .ok ⟨env.rootId, true⟩) := by
  constructor
  · intro env st tid h
    have hw : walkUp (nodeParent env st) env.rootId scopeDepthCap tid = false := by
      rcases Bool.eq_false_or_eq_true (walkUp (nodeParent env st) env.rootId scopeDepthCap tid)
        with ht | hf
      · obtain ⟨k, hk, ha⟩ := (walkUp_iff (nodeParent env st) env.rootId scopeDepthCap tid).mp ht
        exact absurd ha (h k hk)
      · exact hf
    rw [resolve, hw]
    rfl
  · intro env st
    rw [resolve]

/-- Claim C1 witness: with an empty backend graph the identifier `"ghost"`
has no parent chain to `"root"`, so `resolve` fails with `OutOfScope`; an
absent target yields the root folder. -/
theorem resolve_rejects_unreachable_spot :
    resolve ⟨"secret", "root", fun _ => none, fun _ => ""⟩ ⟨[], 0⟩ (some "ghost")
        = .error .outOfScope
    ∧ resolve ⟨"secret", "root", fun _ => none, fun _ => ""⟩ ⟨[], 0⟩ none
        = .ok ⟨"root", true⟩ :=
  ⟨resolve_rejects_unreachable.1 ⟨"secret", "root", fun _ => none, fun _ => ""⟩ ⟨[], 0⟩ "ghost"
     (by decide),
   resolve_rejects_unreachable.2 ⟨"secret", "root", fun _ => none, fun _ => ""⟩ ⟨[], 0⟩⟩

/-- Claim C2: any request that lacks the shared secret and is not the
health check gets the constant 401 unauthorized response with the backend
untouched — so the response is independent of the request's target, body
and backend state — while the health check needs no secret and returns the
status-ok body. -/
theorem gateway_auth_before_everything :
    (∀ (env : Env) (st : Backend) (req : Request),
        hasSecret env req = false → req.route ≠ .health →
        handle env st req = (errorResponse .unauthorized, st))
    ∧ (∀ (env : Env) (st st2 : Backend) (req req2 : Request),
        hasSecret env req = false → req.route ≠ .health →
        hasSecret env req2 = false → req2.route ≠ .health →
        (handle env st req).1 = (handle env st2 req2).1)
    ∧ (errorResponse .unauthorized).status = 401
    ∧ (∀ (env : Env) (st : Backend) (req : Request), req.route = .health →
        handle env st req = (healthResponse, st))
    ∧ healthResponse.body = "\x7b\"status\":\"ok\"\x7d" := by
  have h1 : ∀ (env : Env) (st : Backend) (req : Request),
      hasSecret env req = false → req.route ≠ .health →
      handle env st req = (errorResponse .unauthorized, st) := by
    intro env st req hs hr
    rw [handle, if_neg hr, hs]
    rfl
  refine ⟨h1, ?_, rfl, ?_, rfl⟩
  · intro env st st2 req req2 hs hr hs2 hr2
    rw [h1 env st req hs hr, h1 env st2 req2 hs2 hr2]
  · intro env st req hr
    rw [handle, if_pos hr]

/-- Claim C2 witness: a secretless request for a nonexistent file's content
is answered 401 with the state unchanged, and a secretless health check is
answered 200 with the status-ok body. -/
theorem gateway_auth_before_everything_spot :
    handle ⟨"secret", "root", fun _ => none, fun _ => ""⟩ ⟨[], 0⟩
        ⟨.fileContent "nonexistent", none, none⟩
      = (errorResponse .unauthorized, ⟨[], 0⟩)
    ∧ handle ⟨"secret", "root", fun _ => none, fun _ => ""⟩ ⟨[], 0⟩ ⟨.health, none, none⟩
      = (healthResponse, ⟨[], 0⟩) :=
  ⟨gateway_auth_before_everything.1 ⟨"secret", "root", fun _ => none, fun _ => ""⟩ ⟨[], 0⟩
     ⟨.fileContent "nonexistent", none, none⟩ (by decide) (by decide),
   gateway_auth_before_everything.2.2.2.1 ⟨"secret", "root", fun _ => none, fun _ => ""⟩
     ⟨[], 0⟩ ⟨.health, none, none⟩ rfl⟩

/-- Claim C3: a write call must be driven by exactly one of `content` and
`sourceUrl`: when both or neither are supplied, `write` fails with
`InvalidRequest`, the gateway maps it to HTTP 400, and the backend state is
unchanged (no file is created or updated). -/
theorem write_exactly_one_body_source :
    (∀ (env : Env) (st : Backend) (a : WriteArgs),
        a.content.isSome = a.sourceUrl.isSome →
        write env st a = .error .invalidRequest)
    ∧ (∀ (env : Env) (st : Backend) (req : Request) (a : WriteArgs),
        req.route = .writeFile (some a) → hasSecret env req = true →
        a.content.isSome = a.sourceUrl.isSome →
        handle env st req = (errorResponse .invalidRequest, st))
    ∧ (errorResponse .invalidRequest).status = 400 := by
  have h1 : ∀ (env : Env) (st : Backend) (a : WriteArgs),
      a.content.isSome = a.sourceUrl.isSome →
      write env st a = .error .invalidRequest := by
    intro env st a h
    cases hc : a.content with
    | some c =>
      cases hu : a.sourceUrl with
      | some u => rw [write, bodyOf, hc, hu]
      | none => rw [hc, hu] at h; simp at h
    | none =>
      cases hu : a.sourceUrl with
      | some u => rw [hc, hu] at h; simp at h
      | none => rw [write, bodyOf, hc, hu]
  refine ⟨h1, ?_, rfl⟩
  intro env st req a hr hs hone
  have hne : req.route ≠ .health := by
    rw [hr]
    intro hcontra
    cases hcontra
  rw [handle, if_neg hne, hs, if_pos rfl]
  simp only [hr, h1 env st a hone]

/-- Claim C3 witness: a body with both `content` and `sourceUrl`, and one
with neither, are both rejected as `InvalidRequest` by `write`, and the
gateway answers such an authorized request with the 400 response and the
unchanged backend. -/
theorem write_exactly_one_body_source_spot :
    write ⟨"secret", "root", fun _ => none, fun _ => ""⟩ ⟨[], 0⟩
        ⟨"n", "text/plain", some "c", some "u", none⟩
      = .error .invalidRequest
    ∧ write ⟨"secret", "root", fun _ => none, fun _ => ""⟩ ⟨[], 0⟩
        ⟨"n", "text/plain", none, none, none⟩
      = .error .invalidRequest
    ∧ handle ⟨"secret", "root", fun _ => none, fun _ => ""⟩ ⟨[], 0⟩
        ⟨.writeFile (some ⟨"n", "text/plain", none, none, none⟩), some "secret", none⟩
      = (errorResponse .invalidRequest, ⟨[], 0⟩) :=
  ⟨write_exactly_one_body_source.1 ⟨"secret", "root", fun _ => none, fun _ => ""⟩ ⟨[], 0⟩
     ⟨"n", "text/plain", some "c", some "u", none⟩ rfl,
   write_exactly_one_body_source.1 ⟨"secret", "root", fun _ => none, fun _ => ""⟩ ⟨[], 0⟩
     ⟨"n", "text/plain", none, none, none⟩ rfl,
   write_exactly_one_body_source.2.1 ⟨"secret", "root", fun _ => none, fun _ => ""⟩ ⟨[], 0⟩
     ⟨.writeFile (some ⟨"n", "text/plain", none, none, none⟩), some "secret", none⟩
     ⟨"n", "text/plain", none, none, none⟩ rfl (by decide) rfl⟩

/-- Claim C4: every MIME type other than the three structured ones (and in
particular every MIME type outside the four recognized types) is encoded by
the raw-text fallback: the content becomes a verbatim `plainText` intent
and no structured encoding is applied. -/
theorem unknown_mime_plain_fallback :
    ∀ (mimeType content : String),
      mimeType ≠ docMime → mimeType ≠ sheetMime → mimeType ≠ slidesMime →
      encodeContent mimeType content = .plainText content := by
  intro mimeType content h1 h2 h3
  rw [encodeContent, if_neg h1, if_neg h2, if_neg h3]

/-- Claim C4 witness: an unrecognized MIME type such as `application/pdf`
falls back to the verbatim plain-text intent. -/
theorem unknown_mime_plain_fallback_spot :
    encodeContent "application/pdf" "raw bytes here" = .plainText "raw bytes here" :=
  unknown_mime_plain_fallback "application/pdf" "raw bytes here"
    (by decide) (by decide) (by decide)

/-- Claim C5: writing with the spreadsheet MIME type parses the content as
delimited rows into the sheet's cell grid: for content `"a,b\n1,2"` the
normalized write-intent is a sheet whose first two rows are `["a","b"]` and
`["1","2"]`. -/
theorem spreadsheet_rows_from_csv :
    ((write ⟨"secret", "root", fun _ => none, fun _ => ""⟩ ⟨[], 0⟩
        ⟨"table", sheetMime, some "a,b\n1,2", none, none⟩).toOption.map (fun p => p.1.intent))
      = some (.sheetRows [["a", "b"], ["1", "2"]]) := by
  decide

/-- Claim C6: writing with the presentation MIME type splits the content on
lines, the first line becoming the slide title and the remaining lines one
body block: for `"Title\nLine one\nLine two"` the slide is titled
`"Title"` with body `"Line one\nLine two"`. -/
theorem presentation_title_body_split :
    ((write ⟨"secret", "root", fun _ => none, fun _ => ""⟩ ⟨[], 0⟩
        ⟨"deck", slidesMime, some "Title\nLine one\nLine two", none, none⟩).toOption.map
        (fun p => p.1.intent))
      = some (.slide "Title" "Line one\nLine two") := by
  decide

theorem find?_map_update (updated f0 : DriveFile) (hid : updated.id = f0.id) :
    ∀ files : List DriveFile, f0 ∈ files →
      (files.map (fun g => if g.id == f0.id then updated else g)).find?
          (fun g => g.id == f0.id) = some updated := by
  intro files
  induction files with
  | nil =>
    intro h
    exact absurd h (List.not_mem_nil _)
  | cons g rest ih =>
    intro h
    by_cases hg : g.id = f0.id
    · have e1 : (if g.id == f0.id then updated else g) = updated := by
        rw [if_pos (beq_iff_eq.mpr hg)]
      rw [List.map_cons, e1]
      apply List.find?_cons_of_pos
      rw [hid]
      exact beq_self_eq_true _
    · have e1 : (if g.id == f0.id then updated else g) = g := by
        rw [if_neg]
        simp [hg]
      have hmem : f0 ∈ rest := by
        rcases List.mem_cons.mp h with rfl | hr
        · exact absurd rfl hg
        · exact hr
      rw [List.map_cons, e1, List.find?_cons_of_neg, ih hmem]
      simp [hg]

/-- Claim C7: round-trip for plain text — whenever the write operation with
the plain-text MIME type and content `"hello"` succeeds, reading the
returned file's content from the resulting backend state gives back exactly
`"hello"`. -/
theorem plain_text_roundtrip :
    ∀ (env : Env) (st : Backend) (nm : String) (f : DriveFile) (st2 : Backend),
      write env st ⟨nm, plainMime, some "hello", none, none⟩ = .ok (f, st2) →
      readContent env st2 f.id = .ok "hello" := by
  intro env st nm f st2 hw
  have hbody : bodyOf env ⟨nm, plainMime, some "hello", none, none⟩ = .ok "hello" := rfl
  have hres : resolve env st (none : Option String) = .ok ⟨env.rootId, true⟩ := rfl
  have henc : encodeContent plainMime "hello" = .plainText "hello" := by decide
  simp only [write, hbody, hres, henc] at hw
  cases hfind : st.files.find? (fun g => g.name == nm && g.parentId == env.rootId) with
  | some f0 =>
    rw [hfind] at hw
    simp only [Except.ok.injEq, Prod.mk.injEq] at hw
    obtain ⟨hf, hst2⟩ := hw
    have hp := List.find?_some hfind
    simp only [Bool.and_eq_true, beq_iff_eq] at hp
    have hmem := List.mem_of_find?_eq_some hfind
    subst hf
    subst hst2
    have hfindmap := find?_map_update ⟨f0.id, f0.name, plainMime, f0.parentId, .plainText "hello"⟩
      f0 rfl st.files hmem
    have hnp : nodeParent env
        ⟨st.files.map (fun g =>
            if g.id == f0.id then ⟨f0.id, f0.name, plainMime, f0.parentId, .plainText "hello"⟩
            else g), st.nextId⟩ f0.id
        = some env.rootId := by
      rw [nodeParent]
      rw [hfindmap]
      rw [hp.2]
    have hreach : ∃ k, k ≤ scopeDepthCap ∧
        ancestorAt (nodeParent env
          ⟨st.files.map (fun g =>
              if g.id == f0.id then ⟨f0.id, f0.name, plainMime, f0.parentId, .plainText "hello"⟩
              else g), st.nextId⟩) k f0.id = some env.rootId := by
      refine ⟨1, by norm_num [scopeDepthCap], ?_⟩
      show (nodeParent env _ f0.id).bind _ = some env.rootId
      rw [hnp]
      rfl
    have hwup := (walkUp_iff _ env.rootId scopeDepthCap f0.id).mpr hreach
    have hres2 : resolve env
        ⟨st.files.map (fun g =>
            if g.id == f0.id then ⟨f0.id, f0.name, plainMime, f0.parentId, .plainText "hello"⟩
            else g), st.nextId⟩ (some f0.id)
        = .ok ⟨f0.id, f0.id == env.rootId⟩ := by
      rw [resolve, if_pos hwup]
    simp only [readContent, hres2, hfindmap, renderContent]
  | none =>
    rw [hfind] at hw
    simp only [Except.ok.injEq, Prod.mk.injEq] at hw
    obtain ⟨hf, hst2⟩ := hw
    subst hf
    subst hst2
    have hfind2 : (Backend.files ⟨(⟨freshId st, nm, plainMime, env.rootId, .plainText "hello"⟩ :
          DriveFile) :: st.files, st.nextId + 1⟩).find?
          (fun g => g.id == freshId st) = some ⟨freshId st, nm, plainMime, env.rootId,
            .plainText "hello"⟩ := by
      apply List.find?_cons_of_pos
      exact beq_self_eq_true _
    have hnp : nodeParent env
        ⟨(⟨freshId st, nm, plainMime, env.rootId, .plainText "hello"⟩ : DriveFile) :: st.files,
          st.nextId + 1⟩ (freshId st) = some env.rootId := by
      rw [nodeParent, hfind2]
    have hreach : ∃ k, k ≤ scopeDepthCap ∧
        ancestorAt (nodeParent env
          ⟨(⟨freshId st, nm, plainMime, env.rootId, .plainText "hello"⟩ : DriveFile) :: st.files,
            st.nextId + 1⟩) k (freshId st) = some env.rootId := by
      refine ⟨1, by norm_num [scopeDepthCap], ?_⟩
      show (nodeParent env _ (freshId st)).bind _ = some env.rootId
      rw [hnp]
      rfl
    have hwup := (walkUp_iff _ env.rootId scopeDepthCap (freshId st)).mpr hreach
    have hres2 : resolve env
        ⟨(⟨freshId st, nm, plainMime, env.rootId, .plainText "hello"⟩ : DriveFile) :: st.files,
          st.nextId + 1⟩ (some (freshId st))
        = .ok ⟨freshId st, freshId st == env.rootId⟩ := by
      rw [resolve, if_pos hwup]
    simp only [readContent, hres2, hfind2, renderContent]

/-- Claim C7 witness: on the empty backend, writing `"hello"` as plain text
creates `file0` under the root, and reading it back yields `"hello"`. -/
theorem plain_text_roundtrip_spot :
    readContent ⟨"secret", "root", fun _ => none, fun _ => ""⟩
        ⟨[⟨"file0", "note", plainMime, "root", .plainText "hello"⟩], 1⟩ "file0"
      = .ok "hello" :=
  plain_text_roundtrip ⟨"secret", "root", fun _ => none, fun _ => ""⟩ ⟨[], 0⟩ "note"
    ⟨"file0", "note", plainMime, "root", .plainText "hello"⟩
    ⟨[⟨"file0", "note", plainMime, "root", .plainText "hello"⟩], 1⟩ rfl

/-- Modelled from the spec: the phases of one caller of
`getValidCredential` when the stored credential is expired (§4.1) —
about to enter, inside the mutual-exclusion guard, finished. -/
inductive CallerPhase where
  | invoking
  | refreshing
  | finished
deriving DecidableEq, Repr

/-- Modelled from the spec: the cross-request shared state of the
Credential Store (§4.1, §5) for two concurrent callers: each caller's
phase, the holder of the refresh mutex, how many refresh exchanges have
been performed, and whether the stored credential is now fresh. -/
structure CredState where
  caller1 : CallerPhase
  caller2 : CallerPhase
  holder : Option (Fin 2)
  refreshes : Nat
  fresh : Bool
deriving DecidableEq, Repr

/-- Modelled from the spec: both callers arrive simultaneously while the
stored credential is expired and no refresh has happened. -/
def credInit : CredState :=
  ⟨.invoking, .invoking, none, 0, false⟩

/-- Modelled from the spec: the interleaved small-step behaviour of §4.1 —
a caller may enter the guard only when it is free; inside the guard it
performs the refresh exchange exactly when the credential is still
expired, and otherwise reuses the fresh result; leaving releases the
guard. -/
inductive CredStep : CredState → CredState → Prop where
  | acquire1 (s : CredState) : s.caller1 = .invoking → s.holder = none →
      CredStep s { s with caller1 := .refreshing, holder := some 0 }
  | acquire2 (s : CredState) : s.caller2 = .invoking → s.holder = none →
      CredStep s { s with caller2 := .refreshing, holder := some 1 }
  | refresh1 (s : CredState) : s.caller1 = .refreshing → s.holder = some 0 → s.fresh = false →
      CredStep s { s with caller1 := .finished, holder := none,
                          refreshes := s.refreshes + 1, fresh := true }
  | reuse1 (s : CredState) : s.caller1 = .refreshing → s.holder = some 0 → s.fresh = true →
      CredStep s { s with caller1 := .finished, holder := none }
  | refresh2 (s : CredState) : s.caller2 = .refreshing → s.holder = some 1 → s.fresh = false →
      CredStep s { s with caller2 := .finished, holder := none,
                          refreshes := s.refreshes + 1, fresh := true }
  | reuse2 (s : CredState) : s.caller2 = .refreshing → s.holder = some 1 → s.fresh = true →
      CredStep s { s with caller2 := .finished, holder := none }

/-- Inductive invariant of the refresh protocol: the number of exchanges
matches the credential's freshness, finished callers have seen a fresh
credential, and being inside the guard coincides with holding it. -/
def CredInv (s : CredState) : Prop :=
  s.refreshes = (if s.fresh then 1 else 0)
  ∧ (s.caller1 = .finished → s.fresh = true)
  ∧ (s.caller2 = .finished → s.fresh = true)
  ∧ (s.caller1 = .refreshing ↔ s.holder = some 0)
  ∧ (s.caller2 = .refreshing ↔ s.holder = some 1)

theorem credInv_step {s t : CredState} (h : CredStep s t) (hs : CredInv s) : CredInv t := by
  obtain ⟨hr, hf1, hf2, hi1, hi2⟩ := hs
  cases h with
  | acquire1 h1 h2 => simp_all [CredInv]
  | acquire2 h1 h2 => simp_all [CredInv]
  | refresh1 h1 h2 h3 => simp_all [CredInv]
  | reuse1 h1 h2 h3 => simp_all [CredInv]
  | refresh2 h1 h2 h3 => simp_all [CredInv]
  | reuse2 h1 h2 h3 => simp_all [CredInv]

/-- Claim C8: in every interleaving of two callers hitting an expired
credential, the refresh runs under the mutual-exclusion guard (the two
callers are never both inside it), and when both callers have finished
exactly one refresh exchange has been performed — the second caller reuses
the first one's result. -/
theorem concurrent_refresh_single_exchange :
    ∀ s : CredState, Relation.ReflTransGen CredStep credInit s →
      ¬(s.caller1 = .refreshing ∧ s.caller2 = .refreshing)
      ∧ (s.caller1 = .finished → s.caller2 = .finished → s.refreshes = 1) := by
  have hinv : ∀ s : CredState, Relation.ReflTransGen CredStep credInit s → CredInv s := by
    intro s h
    induction h with
    | refl =>
      unfold CredInv
      decide
    | tail _ hstep ih => exact credInv_step hstep ih
  intro s h
  obtain ⟨hr, hf1, hf2, hi1, hi2⟩ := hinv s h
  constructor
  · rintro ⟨h1, h2⟩
    rw [hi1] at h1
    rw [hi2] at h2
    rw [h1] at h2
    exact absurd h2 (by decide)
  · intro d1 d2
    rw [hr, hf1 d1]
    rfl

/-- Claim C8 witness: the interleaving where caller 1 refreshes and
caller 2 then reuses the fresh credential reaches the both-finished state
with exactly one refresh exchange. -/
theorem concurrent_refresh_single_exchange_spot :
    CredState.refreshes ⟨.finished, .finished, none, 1, true⟩ = 1 :=
  (concurrent_refresh_single_exchange ⟨.finished, .finished, none, 1, true⟩
    (Relation.ReflTransGen.tail
      (Relation.ReflTransGen.tail
        (Relation.ReflTransGen.tail
          (Relation.ReflTransGen.tail Relation.ReflTransGen.refl
            (CredStep.acquire1 credInit rfl rfl))
          (CredStep.refresh1 ⟨.refreshing, .invoking, some 0, 0, false⟩ rfl rfl rfl))
        (CredStep.acquire2 ⟨.finished, .invoking, none, 1, true⟩ rfl rfl))
      (CredStep.reuse2 ⟨.finished, .refreshing, some 1, 1, true⟩ rfl rfl rfl))).2 rfl rfl
